import Mathlib

/-!
Verification of the AILAB bandit/experiment backend.

This file gives a shallow embedding of the core components of the
repository (the reward ledger, the bandit policy functions, the bandit
HTTP handlers, the Cerebras explanation client's retry loop, and the
background task lifecycle) and proves the frozen claims about them.

Modelling conventions:
* Python floats are modelled as rationals (`ℚ`).
* Python dicts with integer keys are modelled as association lists
  `List (Nat × _)` in insertion order (Python dicts iterate in insertion
  order); inserting an existing key updates it in place, a fresh key is
  appended at the end (`dictInsert`), exactly like a Python dict.
* `KeyError` / `IndexError` paths are modelled with `Option` / `Except`.
* The process-global random generator is modelled by passing the draws
  the code consumes as explicit arguments: one uniform draw `r` for
  `random.random()`, an index for `random.choice` (`pyChoice` picks the
  element at `idx % len`, and fails on an empty list exactly as
  `random.choice` raises), and for `random.betavariate` a function of
  the (clamped) alpha/beta parameters and the draw position.
* `math.sqrt` / `math.log` on floats are abstracted as rational-valued
  function parameters `sqrtQ` / `logQ`; no claim depends on their values.
* The remote Cerebras transport (SDK or REST) is abstracted as a
  function from the attempt index to `Except String CallResult`.
-/

namespace AILab

/-- A row of the `bandit_arms` table (`models_bandits.Arm`):
id, owning experiment, optional label. -/
structure ArmRec where
  id : Nat
  experiment_id : Nat
  label : Option String
  deriving Repr, DecidableEq

/-- A row of the `bandit_events` table (`models_bandits.Event`):
owning experiment, optional arm reference, type (`"pick"` or `"reward"`),
optional reward.  The position in the event list is the append order
(ascending `created_at`, ties by insertion). -/
structure EventRec where
  experiment_id : Nat
  arm_id : Option Nat
  type : String
  reward : Option ℚ
  deriving Repr, DecidableEq

/-- A row of the `bandit_explanations` table (`models_bandits.Explanation`). -/
structure ExplRec where
  experiment_id : Nat
  arm_id : Option Nat
  policy : String
  rationale : String
  tokens : String
  latency_ms : Option Nat
  model : Option String
  deriving Repr, DecidableEq

/-- The bandit-side database state: arms, the append-only event ledger,
and the stored explanations. -/
structure BanditDB where
  arms : List ArmRec
  events : List EventRec
  explanations : List ExplRec
  deriving Repr, DecidableEq

/-- Per-arm accumulator built by `_get_arm_stats` before the average is
derived: picks, summed rewards, reward count, label. -/
structure ArmStats0 where
  picks : Nat
  rewards : ℚ
  count_rewards : Nat
  label : Option String
  deriving Repr, DecidableEq

/-- Per-arm statistics as returned by `_get_arm_stats`, with the derived
`avg_reward` field added. -/
structure ArmStats where
  picks : Nat
  rewards : ℚ
  count_rewards : Nat
  label : Option String
  avg_reward : ℚ
  deriving Repr, DecidableEq

/-- Python-dict insertion on an association list: an existing key is
updated in place (keeping its position), a fresh key is appended. -/
def dictInsert {β : Type} (d : List (Nat × β)) (k : Nat) (v : β) : List (Nat × β) :=
  match d with
  | [] => [(k, v)]
  | (a, b) :: rest => if a = k then (a, v) :: rest else (a, b) :: dictInsert rest k v

/-- The dict comprehension in `_get_arm_stats`:
`stats = {a.id: {"picks": 0, "rewards": 0.0, "count_rewards": 0, "label": a.label} for a in arms}`. -/
def initStats (arms : List ArmRec) : List (Nat × ArmStats0) :=
  arms.foldl (fun d a => dictInsert d a.id ⟨0, 0, 0, a.label⟩) []

/-- `stats[k] = f(stats[k])` on a Python dict: updates the entry for `k`,
or fails (`KeyError`) when `k` is absent. -/
def bumpStat (stats : List (Nat × ArmStats0)) (k : Nat) (f : ArmStats0 → ArmStats0) :
    Option (List (Nat × ArmStats0)) :=
  match stats with
  | [] => none
  | (a, s) :: rest =>
    if a = k then some ((a, f s) :: rest)
    else (bumpStat rest k f).map (fun r => (a, s) :: r)

/-- The first conditional of the event loop in `_get_arm_stats`:
`if ev.type == "pick" and ev.arm_id: stats[ev.arm_id]["picks"] += 1`
(note the truthiness test: `arm_id` must be non-`None` and non-zero).
A missing key raises `KeyError`, modelled as `none`. -/
def pickStep (stats : List (Nat × ArmStats0)) (ev : EventRec) :
    Option (List (Nat × ArmStats0)) :=
  match ev.arm_id with
  | some a =>
    if ev.type = "pick" ∧ a ≠ 0 then
      bumpStat stats a (fun s => { s with picks := s.picks + 1 })
    else some stats
  | none => some stats

/-- The second conditional of the event loop in `_get_arm_stats`:
`if ev.type == "reward" and ev.arm_id is not None and ev.reward is not None:
 stats[ev.arm_id]["rewards"] += ev.reward; stats[ev.arm_id]["count_rewards"] += 1`. -/
def rewardStep (stats : List (Nat × ArmStats0)) (ev : EventRec) :
    Option (List (Nat × ArmStats0)) :=
  match ev.arm_id, ev.reward with
  | some a, some r =>
    if ev.type = "reward" then
      bumpStat stats a (fun s =>
        { s with rewards := s.rewards + r, count_rewards := s.count_rewards + 1 })
    else some stats
  | _, _ => some stats

/-- One iteration of the event loop in `_get_arm_stats`: the two
conditionals in sequence. -/
def applyEvent (stats : List (Nat × ArmStats0)) (ev : EventRec) :
    Option (List (Nat × ArmStats0)) :=
  match pickStep stats ev with
  | none => none
  | some s1 => rewardStep s1 ev

/-- The `for ev in events` loop of `_get_arm_stats`. -/
def foldEvents (stats : List (Nat × ArmStats0)) : List EventRec → Option (List (Nat × ArmStats0))
  | [] => some stats
  | ev :: rest =>
    match applyEvent stats ev with
    | none => none
    | some s' => foldEvents s' rest

/-- The final loop of `_get_arm_stats`:
`s["avg_reward"] = (s["rewards"] / s["count_rewards"]) if s["count_rewards"] > 0 else 0.0`. -/
def withAvg (s : ArmStats0) : ArmStats :=
  ⟨s.picks, s.rewards, s.count_rewards, s.label,
    if 0 < s.count_rewards then s.rewards / (s.count_rewards : ℚ) else 0⟩

/-- `_get_arm_stats` restricted to its pure core: the stats derived from a
given arm list and ordered event list.  `none` models the `KeyError`
raised when an event references an arm id absent from the dict. -/
def statsOf (arms : List ArmRec) (events : List EventRec) : Option (List (Nat × ArmStats)) :=
  (foldEvents (initStats arms) events).map (List.map (fun p => (p.1, withAvg p.2)))

/-- `_get_events`: the experiment's events in append order. -/
def getEvents (db : BanditDB) (expId : Nat) : List EventRec :=
  db.events.filter (fun ev => ev.experiment_id == expId)

/-- The experiment's arms, in primary-key/query order. -/
def getArms (db : BanditDB) (expId : Nat) : List ArmRec :=
  db.arms.filter (fun a => a.experiment_id == expId)

/-- `_get_arm_stats(db, experiment_id)` from `app_llama.py`. -/
def getArmStats (db : BanditDB) (expId : Nat) : Option (List (Nat × ArmStats)) :=
  statsOf (getArms db expId) (getEvents db expId)

/-- `random.choice(l)`: a uniformly random element, modelled by the
element at `idx % len(l)` for an externally supplied draw `idx`;
on the empty list `random.choice` raises (`none`). -/
def pyChoice (idx : Nat) (l : List Nat) : Option Nat :=
  l[idx % l.length]?

/-- The fold inside Python's `max(xs, key=f)`: keep the current best,
replace it only on a strictly larger key, so ties keep the earlier
element. -/
def pyMaxFold {α : Type} (f : α → ℚ) (best : α) : List α → α
  | [] => best
  | y :: ys => pyMaxFold f (if f best < f y then y else best) ys

/-- Python's `max(xs, key=f)`: the first element attaining the maximal
key; raises (`none`) on an empty list. -/
def pyMaxKey {α : Type} (f : α → ℚ) : List α → Option α
  | [] => none
  | x :: xs => some (pyMaxFold f x xs)

/-- `_epsilon_greedy(stats, epsilon)`: explore with probability `epsilon`
(one uniform draw `r` from `random.random()`), otherwise return the arm
with the highest `avg_reward` (Python `max` over the keys, which iterates
entries in insertion order; looking each key up in the same dict is the
same as maximising over the entries by value). -/
def epsilonGreedy (stats : List (Nat × ArmStats)) (epsilon : ℚ) (r : ℚ) (choiceIdx : Nat) :
    Option Nat :=
  if r < epsilon then pyChoice choiceIdx (stats.map Prod.fst)
  else (pyMaxKey (fun p => p.2.avg_reward) stats).map Prod.fst

/-- `_ucb(stats)`: random arm when no picks at all, otherwise the arm
maximising `avg_reward + sqrt(2 * log(total_picks + 1) / max(1, picks))`.
`math.sqrt`/`math.log` are abstracted as `sqrtQ`/`logQ`. -/
def ucb (stats : List (Nat × ArmStats)) (sqrtQ logQ : ℚ → ℚ) (choiceIdx : Nat) : Option Nat :=
  let total_picks : Nat := (stats.map (fun p => p.2.picks)).sum
  if total_picks = 0 then pyChoice choiceIdx (stats.map Prod.fst)
  else
    let score := fun (s : ArmStats) =>
      let picks : Nat := max 1 s.picks
      s.avg_reward + sqrtQ (2 * logQ ((total_picks : ℚ) + 1) / (picks : ℚ))
    (pyMaxKey (fun p => score p.2) stats).map Prod.fst

/-- The `for k, s in stats.items()` loop of `_thompson`: per arm compute
`alpha = 1 + rewards`, `beta = 1 + max(0, picks - rewards)`, draw
`sample = betavariate(max(1e-3, alpha), max(1e-3, beta))` (the draw is a
function of the clamped parameters and the draw position `i`), and keep
the strictly best sample. -/
def thompsonLoop (sampler : ℚ → ℚ → Nat → ℚ) :
    List (Nat × ArmStats) → Nat → Option Nat → ℚ → Option Nat
  | [], _, bestK, _ => bestK
  | (k, s) :: rest, i, bestK, bestVal =>
    let a : ℚ := 1 + s.rewards
    let b : ℚ := 1 + max 0 ((s.picks : ℚ) - s.rewards)
    let sample := sampler (max (1/1000) a) (max (1/1000) b) i
    if bestVal < sample then thompsonLoop sampler rest (i + 1) (some k) sample
    else thompsonLoop sampler rest (i + 1) bestK bestVal

/-- `_thompson(stats)`: best Beta sample (initial best value `-1`), else
`random.choice(list(stats.keys()))`. -/
def thompson (stats : List (Nat × ArmStats)) (sampler : ℚ → ℚ → Nat → ℚ)
    (choiceIdx : Nat) : Option Nat :=
  match thompsonLoop sampler stats 0 none (-1) with
  | some k => some k
  | none => pyChoice choiceIdx (stats.map Prod.fst)

/-- The body of a `POST /bandits/pick` request (`PickRequest`): `epsilon`
is optional with pydantic default `0.1`; an explicit JSON `null` or an
omitted field both arrive as `none` here, an explicit number as `some`. -/
structure PickReq where
  experiment_id : Nat
  policy : String
  epsilon : Option ℚ
  deriving Repr

/-- The dict returned by `explain_choice`: text, JSON-encoded token
usage, latency in ms, model name. -/
structure CallResult where
  text : String
  tokens : String
  latency_ms : Nat
  model : String
  deriving Repr, DecidableEq

/-- Python's `x or default` on an optional float: `None` and `0.0` are
both falsy, so either yields the default. -/
def pyOrQ (x : Option ℚ) (d : ℚ) : ℚ :=
  match x with
  | none => d
  | some v => if v = 0 then d else v

/-- Python's `x or default` on an optional int. -/
def pyOrInt (x : Option Int) (d : Int) : Int :=
  match x with
  | none => d
  | some v => if v = 0 then d else v

/-- Python's `str.lower()` (the policy names in play are ASCII). -/
def pyLower (s : String) : String := ⟨s.data.map Char.toLower⟩

/-- The policy-dispatch block of `bandits_pick`: route on the lowered
policy name; an unrecognized name is the 400 `"Unknown policy"` branch,
and a policy raising internally (empty-dict `max` / `random.choice`,
impossible when stats is non-empty) would be turned into a 500 by the
handler's outer `except`. -/
def pickArm (stats : List (Nat × ArmStats)) (policy : String) (epsilon : Option ℚ)
    (r : ℚ) (choiceIdx : Nat) (sampler : ℚ → ℚ → Nat → ℚ) (sqrtQ logQ : ℚ → ℚ) :
    Except String Nat :=
  if policy = "epsilon_greedy" then
    match epsilonGreedy stats (pyOrQ epsilon (1/10)) r choiceIdx with
    | some a => .ok a
    | none => .error "500 Internal Server Error"
  else if policy = "ucb" then
    match ucb stats sqrtQ logQ choiceIdx with
    | some a => .ok a
    | none => .error "500 Internal Server Error"
  else if policy = "thompson" then
    match thompson stats sampler choiceIdx with
    | some a => .ok a
    | none => .error "500 Internal Server Error"
  else .error "Unknown policy"

/-- The `bandits_pick` handler (`POST /bandits/pick`).  Randomness and the
float math functions are passed explicitly (see the module docstring);
the result of the `explain_choice` call is passed as `explain`
(`.error` = the call raised).  Returns the chosen arm id together with
the committed database state, or the HTTP error detail:
1. load stats (`KeyError` → the outer `except` → 500),
2. 404 `"Experiment has no arms"` when the stats dict is empty,
3. dispatch on `req.policy.lower()` — note `req.epsilon or 0.1` turns an
   explicit `epsilon = 0` into `0.1`,
4. append the pick event,
5. on a successful explanation also append an `Explanation` row;
   a raising explanation is logged and swallowed,
6. commit and return the arm id. -/
def banditsPick (db : BanditDB) (req : PickReq) (r : ℚ) (choiceIdx : Nat)
    (sampler : ℚ → ℚ → Nat → ℚ) (sqrtQ logQ : ℚ → ℚ)
    (explain : Except String CallResult) : Except String (Nat × BanditDB) :=
  match getArmStats db req.experiment_id with
  | none => .error "500 Internal Server Error"
  | some stats =>
    if stats.isEmpty then .error "Experiment has no arms"
    else
      match pickArm stats (pyLower req.policy) req.epsilon r choiceIdx sampler sqrtQ logQ with
      | .error e => .error e
      | .ok armId =>
        let ev : EventRec := ⟨req.experiment_id, some armId, "pick", none⟩
        let expls : List ExplRec :=
          match explain with
          | .ok result =>
            db.explanations ++
              [⟨req.experiment_id, some armId, pyLower req.policy, result.text, result.tokens,
                some result.latency_ms, some result.model⟩]
          | .error _ => db.explanations
        .ok (armId, { db with events := db.events ++ [ev], explanations := expls })

/-- The body of `POST /bandits/create` (`CreateBanditRequest`). -/
structure CreateReq where
  name : Option String
  arms : Option (List String)
  num_arms : Option Int
  deriving Repr

/-- The `bandits_create` handler, reduced to the list of arm labels it
creates: `labels = req.arms or [None] * int(req.num_arms or 0)` (an
absent or empty `arms` list is falsy; a negative repeat count yields the
empty list), then `if not labels: labels = [None, None]`, then one arm
per label. -/
def banditsCreate (req : CreateReq) : List (Option String) :=
  let labels : List (Option String) :=
    match req.arms with
    | some l =>
      if l.isEmpty then List.replicate (pyOrInt req.num_arms 0).toNat none
      else l.map some
    | none => List.replicate (pyOrInt req.num_arms 0).toNat none
  if labels.isEmpty then [none, none] else labels

/-- The raw body of `POST /bandits/log` before pydantic validation:
`reward` may be absent. -/
structure RawLogReq where
  experiment_id : Nat
  arm_id : Nat
  reward : Option ℚ
  deriving Repr, DecidableEq

/-- The validated `LogRequest` model: `reward: float` is required. -/
structure LogReq where
  experiment_id : Nat
  arm_id : Nat
  reward : ℚ
  deriving Repr, DecidableEq

/-- FastAPI/pydantic validation of `LogRequest`: a missing `reward`
is rejected with 422 before the handler runs (no event stored). -/
def parseLogReq (raw : RawLogReq) : Except String LogReq :=
  match raw.reward with
  | none => .error "422 field required: reward"
  | some q => .ok ⟨raw.experiment_id, raw.arm_id, q⟩

/-- The `bandits_log` handler body: it unconditionally appends a reward
event for the given experiment and arm ids — it performs no check that
the arm exists or belongs to the experiment. -/
def banditsLog (db : BanditDB) (req : LogReq) : Except String BanditDB :=
  .ok { db with events :=
    db.events ++ [⟨req.experiment_id, some req.arm_id, "reward", some req.reward⟩] }

/-- `POST /bandits/log` end to end: pydantic validation, then the handler. -/
def logEndpoint (db : BanditDB) (raw : RawLogReq) : Except String BanditDB :=
  (parseLogReq raw).bind (banditsLog db)

/-- `llm/cerebras_client.py`: the final error message after the retry
loop, `f"Cerebras explanation failed after {retries} retries: {last_err}"`. -/
def explainFailMsg (retries : Nat) (e : String) : String :=
  "Cerebras explanation failed after " ++ toString retries ++ " retries: " ++ e

/-- The `while attempt < retries` loop of `explain_choice`, recursing on
`remaining = retries - attempt`.  The transport (SDK or REST call,
whichever is configured) is a function of the attempt index.  Returns
the outcome together with the number of transport invocations.  When the
loop exits with no recorded error the code's `assert last_err is not None`
fails, modelled by an `AssertionError` outcome. -/
def explainLoop (transport : Nat → Except String CallResult) (retries : Nat) :
    Nat → Nat → Option String → Except String CallResult × Nat
  | _, 0, none => (.error "AssertionError", 0)
  | _, 0, some e => (.error (explainFailMsg retries e), 0)
  | attempt, remaining + 1, _ =>
    match transport attempt with
    | .ok v => (.ok v, 1)
    | .error e =>
      let rest := explainLoop transport retries (attempt + 1) remaining (some e)
      (rest.1, rest.2 + 1)

/-- `explain_choice(context, retries=3, ...)`: fail immediately when the
API key is unset (Python falsiness: missing or empty string), otherwise
run the retry loop from attempt 0. -/
def explainChoice (apiKey : Option String) (retries : Nat)
    (transport : Nat → Except String CallResult) : Except String CallResult × Nat :=
  match apiKey with
  | none => (.error "CEREBRAS_API_KEY is not set", 0)
  | some k =>
    if k = "" then (.error "CEREBRAS_API_KEY is not set", 0)
    else explainLoop transport retries 0 retries none

/-- A row of the `experiments` table (`models.Experiment`).  Note the
model has no `error` column: `result` is the only text field the task
writes on failure. -/
structure WorkExp where
  id : Nat
  model_used : String
  status : String
  input_payload : String
  result : Option String
  deriving Repr, DecidableEq

/-- The background task `run_cerebras_code_analysis` (its twin
`run_llama_chat` has the identical control flow), for an experiment that
exists in the store.  `socketOn` models whether the global socket
manager is configured, `configured` whether the Cerebras client is, and
`callResult` the external inference call.  Returns the final record and
the list of observer snapshots emitted (one inside the `try` after
moving to `running`, one in the `finally`):
* move to `running`, commit, notify;
* unconfigured client → raise → `except`: status `failed`,
  `result = "Error: Cerebras API key not configured"`;
* external call ok → status `completed`, `result` = text;
* external call raising `e` → `except`: status `failed`,
  `result = "Error: " + str(e)`;
* `finally`: notify with the final record. -/
def runCerebrasCodeAnalysis (exp : WorkExp) (socketOn : Bool) (configured : Bool)
    (callResult : Except String String) : WorkExp × List WorkExp :=
  let running := { exp with status := "running" }
  let notes1 : List WorkExp := if socketOn then [running] else []
  let final : WorkExp :=
    if configured then
      match callResult with
      | .ok text => { running with status := "completed", result := some text }
      | .error e => { running with status := "failed", result := some ("Error: " ++ e) }
    else
      { running with
          status := "failed"
          result := some ("Error: " ++ "Cerebras API key not configured") }
  let notes2 : List WorkExp := if socketOn then [final] else []
  (final, notes1 ++ notes2)

/-! ### Concrete states used to exercise the theorems -/

/-- A freshly created two-arm experiment (id 1) with an empty ledger. -/
def freshDB : BanditDB := ⟨[⟨1, 1, none⟩, ⟨2, 1, none⟩], [], []⟩

/-- Two experiments: experiment 1 owns arms 1 and 2, experiment 2 owns
arm 3; empty ledger. -/
def twoExpDB : BanditDB := ⟨[⟨1, 1, none⟩, ⟨2, 1, none⟩, ⟨3, 2, none⟩], [], []⟩

/-- A two-arm experiment whose ledger holds one pick of arm 1. -/
def pickedDB : BanditDB :=
  ⟨[⟨1, 1, none⟩, ⟨2, 1, none⟩], [⟨1, some 1, "pick", none⟩], []⟩

/-- A stats snapshot where arm 1 has average reward 9/10 and arm 2 has
average reward 1/2. -/
def twoArmStats : List (Nat × ArmStats) :=
  [(1, ⟨1, 9/10, 1, none, 9/10⟩), (2, ⟨1, 1/2, 1, none, 1/2⟩)]

/-- A transport that fails on every attempt with a distinct message. -/
def alwaysFailTransport : Nat → Except String CallResult :=
  fun n => .error ("connection refused on attempt " ++ toString n)

/-! ### General lemmas about the helper functions -/

theorem pyChoice_mem {idx : Nat} {l : List Nat} {a : Nat}
    (h : pyChoice idx l = some a) : a ∈ l :=
  List.getElem?_mem h

theorem pyChoice_total {idx : Nat} {l : List Nat} (h : l ≠ []) :
    ∃ a, pyChoice idx l = some a ∧ a ∈ l := by
  have hlt : idx % l.length < l.length := Nat.mod_lt _ (List.length_pos.mpr h)
  exact ⟨l[idx % l.length], List.getElem?_eq_getElem hlt, List.getElem_mem hlt⟩

theorem pyMaxFold_spec {α : Type} (f : α → ℚ) (x : α) (xs : List α) :
    ∃ l1 l2, x :: xs = l1 ++ pyMaxFold f x xs :: l2 ∧
      (∀ y ∈ l1, f y < f (pyMaxFold f x xs)) ∧
      (∀ y ∈ x :: xs, f y ≤ f (pyMaxFold f x xs)) := by
  induction xs generalizing x with
  | nil =>
    refine ⟨[], [], rfl, by simp, ?_⟩
    intro y hy
    simp only [List.mem_singleton] at hy
    simp [hy, pyMaxFold]
  | cons y ys ih =>
    by_cases h : f x < f y
    · have hstep : pyMaxFold f x (y :: ys) = pyMaxFold f y ys := by
        simp [pyMaxFold, h]
      obtain ⟨l1, l2, hdec, hlt, hle⟩ := ih y
      rw [hstep]
      have hxb : f x < f (pyMaxFold f y ys) :=
        lt_of_lt_of_le h (hle y (List.mem_cons_self _ _))
      refine ⟨x :: l1, l2, ?_, ?_, ?_⟩
      · rw [List.cons_append, ← hdec]
      · intro z hz
        rcases List.mem_cons.mp hz with hz | hz
        · subst hz; exact hxb
        · exact hlt z hz
      · intro z hz
        rcases List.mem_cons.mp hz with hz | hz
        · subst hz; exact le_of_lt hxb
        · exact hle z hz
    · push_neg at h
      have hstep : pyMaxFold f x (y :: ys) = pyMaxFold f x ys := by
        simp [pyMaxFold, not_lt.mpr h]
      obtain ⟨l1, l2, hdec, hlt, hle⟩ := ih x
      rw [hstep]
      cases l1 with
      | nil =>
        simp only [List.nil_append] at hdec
        have hx : pyMaxFold f x ys = x := by
          injection hdec with h1 _
          exact h1.symm
        refine ⟨[], y :: ys, ?_, by simp, ?_⟩
        · rw [hx]; rfl
        · intro z hz
          rcases List.mem_cons.mp hz with hz | hz
          · subst hz; rw [hx]
          · rcases List.mem_cons.mp hz with hz' | hz'
            · subst hz'; rw [hx]; exact h
            · exact hle z (List.mem_cons_of_mem _ hz')
      | cons w l1' =>
        simp only [List.cons_append] at hdec
        have hw : w = x := by injection hdec with h1 _; exact h1.symm
        have hys : ys = l1' ++ pyMaxFold f x ys :: l2 := by
          injection hdec with _ h2
        have hxlt : f x < f (pyMaxFold f x ys) := by
          have := hlt w (List.mem_cons_self _ _)
          rwa [hw] at this
        refine ⟨x :: y :: l1', l2, ?_, ?_, ?_⟩
        · rw [List.cons_append, List.cons_append, ← hys]
        · intro z hz
          rcases List.mem_cons.mp hz with hz | hz
          · subst hz; exact hxlt
          · rcases List.mem_cons.mp hz with hz' | hz'
            · subst hz'; exact lt_of_le_of_lt h hxlt
            · exact hlt z (List.mem_cons_of_mem _ hz')
        · intro z hz
          rcases List.mem_cons.mp hz with hz | hz
          · subst hz; exact hle _ (List.mem_cons_self _ _)
          · rcases List.mem_cons.mp hz with hz' | hz'
            · subst hz'
              exact le_trans h (hle _ (List.mem_cons_self _ _))
            · exact hle z (List.mem_cons_of_mem _ hz')

theorem pyMaxKey_spec {α : Type} (f : α → ℚ) (l : List α) (h : l ≠ []) :
    ∃ b l1 l2, pyMaxKey f l = some b ∧ l = l1 ++ b :: l2 ∧
      (∀ y ∈ l1, f y < f b) ∧ (∀ y ∈ l, f y ≤ f b) := by
  match l, h with
  | x :: xs, _ =>
    obtain ⟨l1, l2, hdec, hlt, hle⟩ := pyMaxFold_spec f x xs
    exact ⟨pyMaxFold f x xs, l1, l2, rfl, hdec, hlt, hle⟩

theorem pyMaxKey_isSome {α : Type} (f : α → ℚ) (l : List α) (h : l ≠ []) :
    ∃ b, pyMaxKey f l = some b ∧ b ∈ l := by
  obtain ⟨b, l1, l2, hk, hdec, -, -⟩ := pyMaxKey_spec f l h
  exact ⟨b, hk, hdec ▸ List.mem_append_right l1 (List.mem_cons_self _ _)⟩

theorem optionMapFst_pyMaxKey_isSome (f : Nat × ArmStats → ℚ)
    (stats : List (Nat × ArmStats)) (h : stats ≠ []) :
    ∃ a, Option.map Prod.fst (pyMaxKey f stats) = some a ∧ a ∈ stats.map Prod.fst := by
  obtain ⟨b, hk, hb⟩ := pyMaxKey_isSome f stats h
  exact ⟨b.1, by rw [hk]; rfl, List.mem_map_of_mem Prod.fst hb⟩

theorem epsilonGreedy_isSome (stats : List (Nat × ArmStats)) (epsilon r : ℚ)
    (idx : Nat) (h : stats ≠ []) :
    ∃ a, epsilonGreedy stats epsilon r idx = some a ∧ a ∈ stats.map Prod.fst := by
  have hkeys : stats.map Prod.fst ≠ [] := fun hc => h (List.map_eq_nil_iff.mp hc)
  unfold epsilonGreedy
  by_cases hr : r < epsilon
  · rw [if_pos hr]
    exact pyChoice_total hkeys
  · rw [if_neg hr]
    exact optionMapFst_pyMaxKey_isSome _ stats h

theorem ucb_isSome (stats : List (Nat × ArmStats)) (sqrtQ logQ : ℚ → ℚ)
    (idx : Nat) (h : stats ≠ []) :
    ∃ a, ucb stats sqrtQ logQ idx = some a ∧ a ∈ stats.map Prod.fst := by
  have hkeys : stats.map Prod.fst ≠ [] := fun hc => h (List.map_eq_nil_iff.mp hc)
  unfold ucb
  by_cases hz : (stats.map (fun p => p.2.picks)).sum = 0
  · rw [if_pos hz]
    exact pyChoice_total hkeys
  · rw [if_neg hz]
    exact optionMapFst_pyMaxKey_isSome _ stats h

theorem thompsonLoop_mem (sampler : ℚ → ℚ → Nat → ℚ)
    (l : List (Nat × ArmStats)) (i : Nat) (bestK : Option Nat) (bestVal : ℚ) (k : Nat)
    (h : thompsonLoop sampler l i bestK bestVal = some k) :
    bestK = some k ∨ k ∈ l.map Prod.fst := by
  induction l generalizing i bestK bestVal with
  | nil => exact Or.inl h
  | cons p rest ih =>
    obtain ⟨k', s⟩ := p
    simp only [thompsonLoop] at h
    by_cases hc : bestVal < sampler (max (1/1000) (1 + s.rewards))
        (max (1/1000) (1 + max 0 ((s.picks : ℚ) - s.rewards))) i
    · rw [if_pos hc] at h
      rcases ih _ _ _ h with h' | h'
      · exact Or.inr (by simp [← Option.some_inj.mp h'])
      · exact Or.inr (List.mem_cons_of_mem _ h')
    · rw [if_neg hc] at h
      rcases ih _ _ _ h with h' | h'
      · exact Or.inl h'
      · exact Or.inr (List.mem_cons_of_mem _ h')

theorem thompson_isSome (stats : List (Nat × ArmStats)) (sampler : ℚ → ℚ → Nat → ℚ)
    (idx : Nat) (h : stats ≠ []) :
    ∃ a, thompson stats sampler idx = some a ∧ a ∈ stats.map Prod.fst := by
  have hkeys : stats.map Prod.fst ≠ [] := fun hc => h (List.map_eq_nil_iff.mp hc)
  unfold thompson
  cases hres : thompsonLoop sampler stats 0 none (-1) with
  | none => exact pyChoice_total hkeys
  | some k =>
    refine ⟨k, rfl, ?_⟩
    rcases thompsonLoop_mem sampler stats 0 none (-1) k hres with h' | h'
    · exact absurd h' (by simp)
    · exact h'

theorem explainLoop_step (t : Nat → Except String CallResult)
    (retries attempt remaining : Nat) (lastErr : Option String) (e : String)
    (h : t attempt = .error e) :
    explainLoop t retries attempt (remaining + 1) lastErr =
      ((explainLoop t retries (attempt + 1) remaining (some e)).1,
        (explainLoop t retries (attempt + 1) remaining (some e)).2 + 1) := by
  simp [explainLoop, h]

/-! ### Ledger lemmas -/

theorem bumpStat_of_mem {l : List (Nat × ArmStats0)} {k : Nat} (f : ArmStats0 → ArmStats0)
    (h : k ∈ l.map Prod.fst) : ∃ l', bumpStat l k f = some l' := by
  induction l with
  | nil => simp at h
  | cons p rest ih =>
    obtain ⟨a, s⟩ := p
    by_cases hak : a = k
    · exact ⟨(a, f s) :: rest, by simp [bumpStat, hak]⟩
    · have hmem : k ∈ rest.map Prod.fst := by
        simp only [List.map_cons, List.mem_cons] at h
        rcases h with h1 | h1
        · exact absurd h1.symm hak
        · exact h1
      obtain ⟨l', hl'⟩ := ih hmem
      exact ⟨(a, s) :: l', by simp [bumpStat, hak, hl']⟩

theorem bumpStat_keys {l l' : List (Nat × ArmStats0)} {k : Nat} {f : ArmStats0 → ArmStats0}
    (h : bumpStat l k f = some l') : l'.map Prod.fst = l.map Prod.fst := by
  induction l generalizing l' with
  | nil => simp [bumpStat] at h
  | cons p rest ih =>
    obtain ⟨a, s⟩ := p
    by_cases hak : a = k
    · simp only [bumpStat, if_pos hak, Option.some_inj] at h
      subst h
      rfl
    · simp only [bumpStat, if_neg hak, Option.map_eq_some'] at h
      obtain ⟨r', hr', rfl⟩ := h
      simp [ih hr']

theorem bumpStat_lookup_self {l l' : List (Nat × ArmStats0)} {k : Nat}
    {f : ArmStats0 → ArmStats0} (h : bumpStat l k f = some l') :
    List.lookup k l' = (List.lookup k l).map f := by
  induction l generalizing l' with
  | nil => simp [bumpStat] at h
  | cons p rest ih =>
    obtain ⟨a, s⟩ := p
    by_cases hak : a = k
    · simp only [bumpStat, if_pos hak, Option.some_inj] at h
      subst h
      subst hak
      simp [List.lookup]
    · simp only [bumpStat, if_neg hak, Option.map_eq_some'] at h
      obtain ⟨r', hr', rfl⟩ := h
      have hne : (k == a) = false := beq_eq_false_iff_ne.mpr (Ne.symm hak)
      simp [List.lookup, hne, ih hr']

theorem bumpStat_lookup_other {l l' : List (Nat × ArmStats0)} {k j : Nat}
    {f : ArmStats0 → ArmStats0} (h : bumpStat l k f = some l') (hj : j ≠ k) :
    List.lookup j l' = List.lookup j l := by
  induction l generalizing l' with
  | nil => simp [bumpStat] at h
  | cons p rest ih =>
    obtain ⟨a, s⟩ := p
    by_cases hak : a = k
    · simp only [bumpStat, if_pos hak, Option.some_inj] at h
      subst h
      have hne : (j == a) = false := beq_eq_false_iff_ne.mpr (hak ▸ hj)
      simp [List.lookup, hne]
    · simp only [bumpStat, if_neg hak, Option.map_eq_some'] at h
      obtain ⟨r', hr', rfl⟩ := h
      by_cases hja : j = a
      · subst hja
        simp [List.lookup]
      · have hne : (j == a) = false := beq_eq_false_iff_ne.mpr hja
        simp [List.lookup, hne, ih hr']

theorem pickStep_some {stats : List (Nat × ArmStats0)} {ev : EventRec}
    (h : ∀ a, ev.arm_id = some a → a ∈ stats.map Prod.fst) :
    ∃ s1, pickStep stats ev = some s1 ∧ s1.map Prod.fst = stats.map Prod.fst := by
  cases hid : ev.arm_id with
  | none => exact ⟨stats, by simp [pickStep, hid], rfl⟩
  | some a =>
    by_cases hc : ev.type = "pick" ∧ a ≠ 0
    · obtain ⟨l', hl'⟩ := bumpStat_of_mem _ (h a hid)
      refine ⟨l', ?_, bumpStat_keys hl'⟩
      simp only [pickStep, hid, if_pos hc]
      exact hl'
    · exact ⟨stats, by simp only [pickStep, hid, if_neg hc], rfl⟩

theorem rewardStep_some {stats : List (Nat × ArmStats0)} {ev : EventRec}
    (h : ∀ a, ev.arm_id = some a → a ∈ stats.map Prod.fst) :
    ∃ s1, rewardStep stats ev = some s1 ∧ s1.map Prod.fst = stats.map Prod.fst := by
  cases hid : ev.arm_id with
  | none => exact ⟨stats, by simp [rewardStep, hid], rfl⟩
  | some a =>
    cases hr : ev.reward with
    | none => exact ⟨stats, by simp [rewardStep, hid, hr], rfl⟩
    | some r =>
      by_cases hc : ev.type = "reward"
      · obtain ⟨l', hl'⟩ := bumpStat_of_mem _ (h a hid)
        refine ⟨l', ?_, bumpStat_keys hl'⟩
        simp only [rewardStep, hid, hr, if_pos hc]
        exact hl'
      · exact ⟨stats, by simp only [rewardStep, hid, hr, if_neg hc], rfl⟩

theorem applyEvent_some {stats : List (Nat × ArmStats0)} {ev : EventRec}
    (h : ∀ a, ev.arm_id = some a → a ∈ stats.map Prod.fst) :
    ∃ s', applyEvent stats ev = some s' ∧ s'.map Prod.fst = stats.map Prod.fst := by
  obtain ⟨s1, hs1, hk1⟩ := pickStep_some h
  obtain ⟨s2, hs2, hk2⟩ := @rewardStep_some s1 ev (fun a ha => hk1 ▸ h a ha)
  exact ⟨s2, by unfold applyEvent; rw [hs1]; exact hs2, hk2.trans hk1⟩

theorem pickStep_lookup_other {stats s1 : List (Nat × ArmStats0)} {ev : EventRec} {j : Nat}
    (h : pickStep stats ev = some s1) (hj : ev.arm_id ≠ some j) :
    List.lookup j s1 = List.lookup j stats := by
  cases hid : ev.arm_id with
  | none =>
    simp only [pickStep, hid, Option.some_inj] at h
    rw [h]
  | some a =>
    have haj : j ≠ a := fun hc => hj (by rw [hid, hc])
    by_cases hc : ev.type = "pick" ∧ a ≠ 0
    · simp only [pickStep, hid, if_pos hc] at h
      exact bumpStat_lookup_other h haj
    · simp only [pickStep, hid, if_neg hc, Option.some_inj] at h
      rw [h]

theorem rewardStep_lookup_other {stats s1 : List (Nat × ArmStats0)} {ev : EventRec} {j : Nat}
    (h : rewardStep stats ev = some s1) (hj : ev.arm_id ≠ some j) :
    List.lookup j s1 = List.lookup j stats := by
  cases hid : ev.arm_id with
  | none =>
    simp only [rewardStep, hid, Option.some_inj] at h
    rw [h]
  | some a =>
    have haj : j ≠ a := fun hc => hj (by rw [hid, hc])
    cases hr : ev.reward with
    | none =>
      simp only [rewardStep, hid, hr, Option.some_inj] at h
      rw [h]
    | some r =>
      by_cases hc : ev.type = "reward"
      · simp only [rewardStep, hid, hr, if_pos hc] at h
        exact bumpStat_lookup_other h haj
      · simp only [rewardStep, hid, hr, if_neg hc, Option.some_inj] at h
        rw [h]

theorem applyEvent_lookup_other {stats s' : List (Nat × ArmStats0)} {ev : EventRec} {j : Nat}
    (h : applyEvent stats ev = some s') (hj : ev.arm_id ≠ some j) :
    List.lookup j s' = List.lookup j stats := by
  unfold applyEvent at h
  cases h1 : pickStep stats ev with
  | none => rw [h1] at h; cases h
  | some s1 =>
    rw [h1] at h
    exact (rewardStep_lookup_other h hj).trans (pickStep_lookup_other h1 hj)

theorem foldEvents_some {events : List EventRec} {stats : List (Nat × ArmStats0)}
    (h : ∀ ev ∈ events, ∀ a, ev.arm_id = some a → a ∈ stats.map Prod.fst) :
    ∃ m, foldEvents stats events = some m ∧ m.map Prod.fst = stats.map Prod.fst := by
  induction events generalizing stats with
  | nil => exact ⟨stats, rfl, rfl⟩
  | cons ev rest ih =>
    obtain ⟨s', hs', hk⟩ := applyEvent_some (h ev (List.mem_cons_self _ _))
    obtain ⟨m, hm, hk2⟩ := @ih s'
      (fun e he a ha => hk ▸ h e (List.mem_cons_of_mem _ he) a ha)
    refine ⟨m, ?_, hk2.trans hk⟩
    unfold foldEvents
    rw [hs']
    exact hm

theorem foldEvents_lookup_untouched {events : List EventRec}
    {stats m : List (Nat × ArmStats0)} {j : Nat}
    (hm : foldEvents stats events = some m)
    (h : ∀ ev ∈ events, ev.arm_id ≠ some j) :
    List.lookup j m = List.lookup j stats := by
  induction events generalizing stats with
  | nil => cases hm; rfl
  | cons ev rest ih =>
    unfold foldEvents at hm
    cases hs : applyEvent stats ev with
    | none => rw [hs] at hm; cases hm
    | some s' =>
      rw [hs] at hm
      exact (ih hm (fun e he => h e (List.mem_cons_of_mem _ he))).trans
        (applyEvent_lookup_other hs (h ev (List.mem_cons_self _ _)))

theorem foldEvents_cons (stats : List (Nat × ArmStats0)) (ev : EventRec)
    (rest : List EventRec) :
    foldEvents stats (ev :: rest) =
      match applyEvent stats ev with
      | none => none
      | some s' => foldEvents s' rest := rfl

theorem foldEvents_append (stats : List (Nat × ArmStats0)) (es1 es2 : List EventRec) :
    foldEvents stats (es1 ++ es2) =
      match foldEvents stats es1 with
      | none => none
      | some m => foldEvents m es2 := by
  induction es1 generalizing stats with
  | nil => rfl
  | cons ev rest ih =>
    rw [List.cons_append, foldEvents_cons, foldEvents_cons]
    cases hs : applyEvent stats ev with
    | none => rfl
    | some s' => exact ih s'

theorem applyEvent_reward (stats : List (Nat × ArmStats0)) (e A : Nat) (r : ℚ) :
    applyEvent stats ⟨e, some A, "reward", some r⟩ =
      bumpStat stats A (fun s =>
        { s with rewards := s.rewards + r, count_rewards := s.count_rewards + 1 }) := by
  unfold applyEvent pickStep rewardStep
  simp

theorem dictInsert_fresh {β : Type} (d : List (Nat × β)) (k : Nat) (v : β)
    (h : k ∉ d.map Prod.fst) : dictInsert d k v = d ++ [(k, v)] := by
  induction d with
  | nil => rfl
  | cons p rest ih =>
    obtain ⟨a, b⟩ := p
    have hak : a ≠ k := fun hc => h (by simp [hc])
    simp [dictInsert, hak, ih (fun hc => h (by simp [hc]))]

theorem initStats_aux (arms : List ArmRec) (d : List (Nat × ArmStats0))
    (hnd : (arms.map ArmRec.id).Nodup)
    (hd : ∀ a ∈ arms, a.id ∉ d.map Prod.fst) :
    arms.foldl (fun d a => dictInsert d a.id ⟨0, 0, 0, a.label⟩) d =
      d ++ arms.map (fun a => (a.id, (⟨0, 0, 0, a.label⟩ : ArmStats0))) := by
  induction arms generalizing d with
  | nil => simp
  | cons a rest ih =>
    simp only [List.foldl_cons]
    rw [dictInsert_fresh d a.id _ (hd a (List.mem_cons_self _ _))]
    have hnd' : (rest.map ArmRec.id).Nodup := (List.nodup_cons.mp (by simpa using hnd)).2
    have hhead : a.id ∉ rest.map ArmRec.id := (List.nodup_cons.mp (by simpa using hnd)).1
    have hd' : ∀ b ∈ rest,
        b.id ∉ (d ++ [(a.id, (⟨0, 0, 0, a.label⟩ : ArmStats0))]).map Prod.fst := by
      intro b hb
      simp only [List.map_append, List.map_cons, List.map_nil, List.mem_append,
        List.mem_singleton]
      rintro (hc | hc)
      · exact hd b (List.mem_cons_of_mem _ hb) hc
      · exact hhead (by rw [← hc]; exact List.mem_map_of_mem ArmRec.id hb)
    rw [ih _ hnd' hd']
    simp

theorem initStats_eq (arms : List ArmRec) (hnd : (arms.map ArmRec.id).Nodup) :
    initStats arms = arms.map (fun a => (a.id, (⟨0, 0, 0, a.label⟩ : ArmStats0))) := by
  unfold initStats
  rw [initStats_aux arms [] hnd (by simp)]
  rfl

theorem lookup_map_snd {β γ : Type} (g : β → γ) (k : Nat) (l : List (Nat × β)) :
    List.lookup k (l.map (fun p => (p.1, g p.2))) = (List.lookup k l).map g := by
  induction l with
  | nil => rfl
  | cons p rest ih =>
    obtain ⟨a, b⟩ := p
    by_cases hk : k = a
    · subst hk
      simp [List.lookup]
    · have hne : (k == a) = false := beq_eq_false_iff_ne.mpr hk
      simp [List.lookup, hne, ih]

theorem keys_map_snd {β γ : Type} (g : β → γ) (l : List (Nat × β)) :
    (l.map (fun p => (p.1, g p.2))).map Prod.fst = l.map Prod.fst := by
  rw [List.map_map]
  rfl

theorem lookup_of_mem_keys {β : Type} {k : Nat} {l : List (Nat × β)}
    (h : k ∈ l.map Prod.fst) : ∃ b, List.lookup k l = some b := by
  induction l with
  | nil => simp at h
  | cons p rest ih =>
    obtain ⟨a, b⟩ := p
    by_cases hk : k = a
    · subst hk
      exact ⟨b, by simp [List.lookup]⟩
    · have hne : (k == a) = false := beq_eq_false_iff_ne.mpr hk
      have hmem : k ∈ rest.map Prod.fst := by
        simp only [List.map_cons, List.mem_cons] at h
        rcases h with h1 | h1
        · exact absurd h1 hk
        · exact h1
      obtain ⟨b', hb'⟩ := ih hmem
      exact ⟨b', by simp [List.lookup, hne, hb']⟩

theorem lookup_init (arms : List ArmRec) (hnd : (arms.map ArmRec.id).Nodup)
    {a : ArmRec} (ha : a ∈ arms) :
    List.lookup a.id (initStats arms) = some ⟨0, 0, 0, a.label⟩ := by
  rw [initStats_eq arms hnd]
  induction arms with
  | nil => simp at ha
  | cons b rest ih =>
    rcases List.mem_cons.mp ha with hab | hab
    · subst hab
      simp [List.lookup]
    · have hnd' : (rest.map ArmRec.id).Nodup := (List.nodup_cons.mp (by simpa using hnd)).2
      have hhead : b.id ∉ rest.map ArmRec.id := (List.nodup_cons.mp (by simpa using hnd)).1
      have hne : (a.id == b.id) = false := beq_eq_false_iff_ne.mpr
        (fun hc => hhead (hc ▸ List.mem_map_of_mem ArmRec.id hab))
      simp only [List.map_cons, List.lookup, hne]
      exact ih hnd' hab

/-! ### Claim theorems -/

/-- C1: for every experiment whose arms have distinct ids and whose
events reference only its arms, `_get_arm_stats` succeeds and the
derived mapping has an entry for every arm (arms untouched by any event
keep `picks = 0`, `rewards = 0`, `count_rewards = 0`), and every entry's
`avg_reward` equals `rewards / count_rewards` when `count_rewards > 0`
and `0` otherwise. -/
theorem getArmStats_complete_and_avg (db : BanditDB) (expId : Nat)
    (hnd : ((getArms db expId).map ArmRec.id).Nodup)
    (hvalid : ∀ ev ∈ getEvents db expId, ∀ a, ev.arm_id = some a →
      a ∈ (getArms db expId).map ArmRec.id) :
    ∃ m, getArmStats db expId = some m ∧
      (∀ arm ∈ getArms db expId, ∃ s, List.lookup arm.id m = some s ∧
        ((∀ ev ∈ getEvents db expId, ev.arm_id ≠ some arm.id) →
          s.picks = 0 ∧ s.rewards = 0 ∧ s.count_rewards = 0)) ∧
      (∀ p ∈ m, p.2.avg_reward =
        if 0 < p.2.count_rewards then p.2.rewards / (p.2.count_rewards : ℚ) else 0) := by
  have hkeys0 : (initStats (getArms db expId)).map Prod.fst =
      (getArms db expId).map ArmRec.id := by
    rw [initStats_eq _ hnd, List.map_map]
    rfl
  obtain ⟨m0, hm0, hk0⟩ := @foldEvents_some (getEvents db expId)
    (initStats (getArms db expId))
    (fun ev he a ha => by rw [hkeys0]; exact hvalid ev he a ha)
  refine ⟨m0.map (fun p => (p.1, withAvg p.2)), ?_, ?_, ?_⟩
  · unfold getArmStats statsOf
    rw [hm0]
    rfl
  · intro arm harm
    have hmem : arm.id ∈ m0.map Prod.fst := by
      rw [hk0, hkeys0]
      exact List.mem_map_of_mem ArmRec.id harm
    obtain ⟨s0, hs0⟩ := lookup_of_mem_keys hmem
    refine ⟨withAvg s0, ?_, ?_⟩
    · rw [lookup_map_snd withAvg arm.id m0, hs0]
      rfl
    · intro huntouched
      have heq : List.lookup arm.id m0 = List.lookup arm.id (initStats (getArms db expId)) :=
        foldEvents_lookup_untouched hm0 huntouched
      rw [lookup_init _ hnd harm, hs0] at heq
      have hs : s0 = ⟨0, 0, 0, arm.label⟩ := Option.some_inj.mp heq
      rw [hs]
      exact ⟨rfl, rfl, rfl⟩
  · intro p hp
    obtain ⟨q, hq, rfl⟩ := List.mem_map.mp hp
    rfl

/-- C1 witness: a two-arm experiment whose ledger holds one pick of
arm 1; arm 2 has no events and keeps zero-valued stats. -/
theorem getArmStats_complete_and_avg_witness :
    ∃ m, getArmStats pickedDB 1 = some m ∧
      (∀ arm ∈ getArms pickedDB 1, ∃ s, List.lookup arm.id m = some s ∧
        ((∀ ev ∈ getEvents pickedDB 1, ev.arm_id ≠ some arm.id) →
          s.picks = 0 ∧ s.rewards = 0 ∧ s.count_rewards = 0)) ∧
      (∀ p ∈ m, p.2.avg_reward =
        if 0 < p.2.count_rewards then p.2.rewards / (p.2.count_rewards : ℚ) else 0) :=
  getArmStats_complete_and_avg pickedDB 1 (by decide)
    (by
      intro ev hev a ha
      rw [show getEvents pickedDB 1 = [⟨1, some 1, "pick", none⟩] from rfl] at hev
      simp only [List.mem_singleton] at hev
      subst hev
      simp only [show (⟨1, some 1, "pick", none⟩ : EventRec).arm_id = some 1 from rfl,
        Option.some_inj] at ha
      subst ha
      decide)

/-- C9: for a valid stats snapshot, appending one reward event for arm A
changes only A's entry — its rewards total grows by `r`, its reward
count by one, and its average is recomputed — while A's pick count and
label and every other arm's entry are unchanged; and the derived stats
are a pure function of the experiment's arms and ordered events, so any
replay of the same sequence yields identical aggregates. -/
theorem getArmStats_reward_frame (db : BanditDB) (expId A : Nat) (r : ℚ)
    (m : List (Nat × ArmStats))
    (hm : getArmStats db expId = some m)
    (hA : A ∈ m.map Prod.fst) :
    ∃ m', getArmStats
        { db with events := db.events ++ [⟨expId, some A, "reward", some r⟩] } expId =
        some m' ∧
      (∀ B, B ≠ A → List.lookup B m' = List.lookup B m) ∧
      (∃ s, List.lookup A m = some s ∧
        List.lookup A m' = some ⟨s.picks, s.rewards + r, s.count_rewards + 1, s.label,
          (s.rewards + r) / ((s.count_rewards : ℚ) + 1)⟩) ∧
      (∀ db2 : BanditDB, getArms db2 expId = getArms db expId →
        getEvents db2 expId = getEvents db expId →
        getArmStats db2 expId = getArmStats db expId) := by
  unfold getArmStats statsOf at hm
  rw [Option.map_eq_some'] at hm
  obtain ⟨m0, hm0, hmm⟩ := hm
  subst hmm
  rw [keys_map_snd] at hA
  have hev : getEvents { db with events := db.events ++ [⟨expId, some A, "reward", some r⟩] }
      expId = getEvents db expId ++ [⟨expId, some A, "reward", some r⟩] := by
    unfold getEvents
    simp [List.filter_append]
  have harms : getArms { db with events := db.events ++ [⟨expId, some A, "reward", some r⟩] }
      expId = getArms db expId := rfl
  obtain ⟨m1, hbump⟩ := bumpStat_of_mem
    (fun s => { s with rewards := s.rewards + r, count_rewards := s.count_rewards + 1 }) hA
  have happly : applyEvent m0 ⟨expId, some A, "reward", some r⟩ = some m1 := by
    rw [applyEvent_reward]
    exact hbump
  have hfold : foldEvents (initStats (getArms db expId))
      (getEvents db expId ++ [⟨expId, some A, "reward", some r⟩]) = some m1 := by
    rw [foldEvents_append, hm0]
    show foldEvents m0 [⟨expId, some A, "reward", some r⟩] = some m1
    rw [foldEvents_cons, happly]
    rfl
  refine ⟨m1.map (fun p => (p.1, withAvg p.2)), ?_, ?_, ?_, ?_⟩
  · unfold getArmStats statsOf
    rw [hev, harms, hfold]
    rfl
  · intro B hB
    rw [lookup_map_snd, lookup_map_snd, bumpStat_lookup_other hbump hB]
  · obtain ⟨s0, hs0⟩ := lookup_of_mem_keys hA
    refine ⟨withAvg s0, ?_, ?_⟩
    · rw [lookup_map_snd, hs0]
      rfl
    · rw [lookup_map_snd, bumpStat_lookup_self hbump, hs0]
      show some (withAvg ⟨s0.picks, s0.rewards + r, s0.count_rewards + 1, s0.label⟩) =
        some ⟨s0.picks, s0.rewards + r, s0.count_rewards + 1, s0.label,
          (s0.rewards + r) / ((s0.count_rewards : ℚ) + 1)⟩
      unfold withAvg
      rw [if_pos (Nat.succ_pos _)]
      push_cast
      rfl
  · intro db2 ha2 he2
    unfold getArmStats
    rw [ha2, he2]

/-- C9 witness: appending a reward for arm 1 of the picked two-arm
experiment. -/
theorem getArmStats_reward_frame_witness :
    ∃ m', getArmStats
        { pickedDB with events := pickedDB.events ++ [⟨1, some 1, "reward", some 1⟩] } 1 =
        some m' ∧
      (∀ B, B ≠ 1 → List.lookup B m' =
        List.lookup B [(1, (⟨1, 0, 0, none, 0⟩ : ArmStats)), (2, ⟨0, 0, 0, none, 0⟩)]) ∧
      (∃ s, List.lookup 1 [(1, (⟨1, 0, 0, none, 0⟩ : ArmStats)), (2, ⟨0, 0, 0, none, 0⟩)] =
          some s ∧
        List.lookup 1 m' = some ⟨s.picks, s.rewards + 1, s.count_rewards + 1, s.label,
          (s.rewards + 1) / ((s.count_rewards : ℚ) + 1)⟩) ∧
      (∀ db2 : BanditDB, getArms db2 1 = getArms pickedDB 1 →
        getEvents db2 1 = getEvents pickedDB 1 →
        getArmStats db2 1 = getArmStats pickedDB 1) :=
  getArmStats_reward_frame pickedDB 1 1 1
    [(1, ⟨1, 0, 0, none, 0⟩), (2, ⟨0, 0, 0, none, 0⟩)] rfl (by simp)

/-- C2: for every non-empty stats mapping, `_epsilon_greedy` with
`epsilon = 0` is deterministic (the same arm for any state of the
randomness source) and returns the arm with the maximal `averageReward`,
ties broken by the first-encountered arm id in iteration order (the
returned arm's entry is preceded only by strictly smaller averages and
its average is an upper bound for all entries). -/
theorem epsilonGreedy_zero_deterministic_first_max
    (stats : List (Nat × ArmStats)) (h : stats ≠ [])
    (r1 r2 : ℚ) (hr1 : 0 ≤ r1) (hr2 : 0 ≤ r2) (i1 i2 : Nat) :
    epsilonGreedy stats 0 r1 i1 = epsilonGreedy stats 0 r2 i2 ∧
    ∃ a sa l1 l2, epsilonGreedy stats 0 r1 i1 = some a ∧
      stats = l1 ++ (a, sa) :: l2 ∧
      (∀ p ∈ l1, p.2.avg_reward < sa.avg_reward) ∧
      (∀ p ∈ stats, p.2.avg_reward ≤ sa.avg_reward) := by
  have h1 : ¬ r1 < (0 : ℚ) := not_lt.mpr hr1
  have h2 : ¬ r2 < (0 : ℚ) := not_lt.mpr hr2
  constructor
  · unfold epsilonGreedy
    rw [if_neg h1, if_neg h2]
  · obtain ⟨b, l1, l2, hk, hdec, hlt, hle⟩ :=
      pyMaxKey_spec (fun p => p.2.avg_reward) stats h
    refine ⟨b.1, b.2, l1, l2, ?_, ?_, hlt, hle⟩
    · unfold epsilonGreedy
      rw [if_neg h1, hk]
      rfl
    · simpa using hdec

/-- C2 witness: on the snapshot with averages 9/10 and 1/2 the theorem
applies with two different randomness states. -/
theorem epsilonGreedy_zero_deterministic_first_max_witness :
    epsilonGreedy twoArmStats 0 0 0 = epsilonGreedy twoArmStats 0 1 5 ∧
    ∃ a sa l1 l2, epsilonGreedy twoArmStats 0 0 0 = some a ∧
      twoArmStats = l1 ++ (a, sa) :: l2 ∧
      (∀ p ∈ l1, p.2.avg_reward < sa.avg_reward) ∧
      (∀ p ∈ twoArmStats, p.2.avg_reward ≤ sa.avg_reward) :=
  epsilonGreedy_zero_deterministic_first_max twoArmStats
    (by simp [twoArmStats]) 0 1 le_rfl zero_le_one 0 5

/-- C5: `_thompson` returns a key of the input mapping whenever the
mapping is non-empty; with exactly one arm it returns that arm; with the
empty mapping it falls back to the uniform random choice over the (empty)
key list. -/
theorem thompson_stays_in_stats
    (stats : List (Nat × ArmStats)) (sampler : ℚ → ℚ → Nat → ℚ) (idx : Nat) :
    (stats ≠ [] → ∃ a, thompson stats sampler idx = some a ∧ a ∈ stats.map Prod.fst) ∧
    (∀ k s, stats = [(k, s)] → thompson stats sampler idx = some k) ∧
    (stats = [] → thompson stats sampler idx = pyChoice idx (stats.map Prod.fst)) := by
  refine ⟨fun h => thompson_isSome stats sampler idx h, ?_, ?_⟩
  · intro k s hs
    subst hs
    unfold thompson
    cases hres : thompsonLoop sampler [(k, s)] 0 none (-1) with
    | some k' =>
      rcases thompsonLoop_mem sampler _ 0 none (-1) k' hres with h' | h'
      · exact absurd h' (by simp)
      · simp only [List.map_cons, List.map_nil, List.mem_singleton] at h'
        rw [h']
    | none =>
      simp [pyChoice, Nat.mod_one]
  · intro h
    subst h
    rfl

/-- C5 witness: a concrete two-arm snapshot with a fixed sampler. -/
theorem thompson_stays_in_stats_witness :
    ∃ a, thompson [(7, ⟨0, 0, 0, none, 0⟩), (9, ⟨0, 0, 0, none, 0⟩)]
        (fun _ _ _ => 1/3) 4 = some a ∧
      a ∈ ([(7, ⟨0, 0, 0, none, 0⟩), (9, ⟨0, 0, 0, none, 0⟩)] :
        List (Nat × ArmStats)).map Prod.fst :=
  (thompson_stays_in_stats _ _ 4).1 (by simp)

/-- C6: with `retries = 3`, a configured key and a transport failing on
every attempt, `explain_choice` invokes the transport exactly 3 times and
raises an error whose message includes the last underlying failure text. -/
theorem explainChoice_retries_exhausted (key : String) (hkey : key ≠ "")
    (transport : Nat → Except String CallResult)
    (hfail : ∀ n, ∃ e, transport n = .error e) :
    (explainChoice (some key) 3 transport).2 = 3 ∧
    ∃ e, transport 2 = .error e ∧
      ∃ pre post, (explainChoice (some key) 3 transport).1 = .error (pre ++ e ++ post) := by
  obtain ⟨e0, h0⟩ := hfail 0
  obtain ⟨e1, h1⟩ := hfail 1
  obtain ⟨e2, h2⟩ := hfail 2
  have hrun : explainChoice (some key) 3 transport = (.error (explainFailMsg 3 e2), 3) := by
    show (if key = "" then ((Except.error "CEREBRAS_API_KEY is not set" :
        Except String CallResult), 0) else explainLoop transport 3 0 3 none) = _
    rw [if_neg hkey]
    rw [show (3 : Nat) = 2 + 1 from rfl, explainLoop_step transport 3 0 2 none e0 h0,
      explainLoop_step transport 3 1 1 (some e0) e1 h1,
      explainLoop_step transport 3 2 0 (some e1) e2 h2]
    rfl
  refine ⟨by rw [hrun], e2, h2,
    "Cerebras explanation failed after " ++ toString (3 : Nat) ++ " retries: ", "", ?_⟩
  rw [hrun, String.append_empty]
  rfl

theorem pickArm_ok (stats : List (Nat × ArmStats)) (policy : String) (epsilon : Option ℚ)
    (r : ℚ) (idx : Nat) (sampler : ℚ → ℚ → Nat → ℚ) (sqrtQ logQ : ℚ → ℚ)
    (hne : stats ≠ [])
    (hp : policy = "epsilon_greedy" ∨ policy = "ucb" ∨ policy = "thompson") :
    ∃ a, pickArm stats policy epsilon r idx sampler sqrtQ logQ = .ok a := by
  unfold pickArm
  rcases hp with hp | hp | hp <;> subst hp
  · obtain ⟨a, ha, -⟩ := epsilonGreedy_isSome stats (pyOrQ epsilon (1/10)) r idx hne
    rw [if_pos rfl, ha]
    exact ⟨a, rfl⟩
  · obtain ⟨a, ha, -⟩ := ucb_isSome stats sqrtQ logQ idx hne
    rw [if_neg (by decide), if_pos rfl, ha]
    exact ⟨a, rfl⟩
  · obtain ⟨a, ha, -⟩ := thompson_isSome stats sampler idx hne
    rw [if_neg (by decide), if_neg (by decide), if_pos rfl, ha]
    exact ⟨a, rfl⟩

theorem banditsPick_reduce (db : BanditDB) (req : PickReq) (r : ℚ) (idx : Nat)
    (sampler : ℚ → ℚ → Nat → ℚ) (sqrtQ logQ : ℚ → ℚ) (err : String)
    (stats : List (Nat × ArmStats)) (a : Nat)
    (hstats : getArmStats db req.experiment_id = some stats)
    (hne : stats.isEmpty = false)
    (hpick : pickArm stats (pyLower req.policy) req.epsilon r idx sampler sqrtQ logQ = .ok a) :
    banditsPick db req r idx sampler sqrtQ logQ (.error err) =
      .ok (a, { db with events := db.events ++ [⟨req.experiment_id, some a, "pick", none⟩] }) := by
  unfold banditsPick
  rw [hstats]
  show (if stats.isEmpty then
      (.error "Experiment has no arms" : Except String (Nat × BanditDB))
    else
      match pickArm stats (pyLower req.policy) req.epsilon r idx sampler sqrtQ logQ with
      | .error e => .error e
      | .ok armId =>
        .ok (armId, { db with
          events := db.events ++ [⟨req.experiment_id, some armId, "pick", none⟩]
          explanations := db.explanations })) = _
  rw [hne, if_neg Bool.false_ne_true, hpick]

/-- C3: the claim fails on the code.  A pick request with
`policy = "epsilon_greedy"` and an explicit `epsilon = 0` on a fresh
two-arm experiment is NOT deterministic: the handler evaluates
`req.epsilon or 0.1`, and since `0.0` is falsy in Python the effective
epsilon becomes `0.1`, so the exploration branch can fire.  With the
uniform draw `r = 1/20 < 1/10` and `random.choice` selecting index 1,
the pick returns arm 2, not the first arm (arm 1) that the claim
requires for every state of the randomness source. -/
theorem banditsPick_epsilon_zero_not_deterministic :
    banditsPick freshDB ⟨1, "epsilon_greedy", some 0⟩ (1/20) 1 (fun _ _ _ => 0) id id
        (.error "offline") =
      .ok (2, { freshDB with events := freshDB.events ++ [⟨1, some 2, "pick", none⟩] }) ∧
    (2 : Nat) ≠ 1 := by
  have hpick : pickArm [(1, (⟨0, 0, 0, none, 0⟩ : ArmStats)), (2, ⟨0, 0, 0, none, 0⟩)]
      (pyLower "epsilon_greedy") (some 0) (1/20) 1 (fun _ _ _ => 0) id id = .ok 2 := by
    rw [show pyLower "epsilon_greedy" = "epsilon_greedy" from by decide]
    unfold pickArm
    rw [if_pos rfl]
    have hexp : epsilonGreedy [(1, (⟨0, 0, 0, none, 0⟩ : ArmStats)), (2, ⟨0, 0, 0, none, 0⟩)]
        (pyOrQ (some 0) (1/10)) (1/20) 1 = some 2 := by
      unfold epsilonGreedy
      have heps : pyOrQ (some 0) (1/10) = 1/10 := by
        show (if (0 : ℚ) = 0 then (1 : ℚ)/10 else 0) = 1/10
        rw [if_pos rfl]
      rw [heps, if_pos (by norm_num : (1 : ℚ)/20 < 1/10)]
      rfl
    rw [hexp]
  exact ⟨banditsPick_reduce freshDB ⟨1, "epsilon_greedy", some 0⟩ (1/20) 1
    (fun _ _ _ => 0) id id "offline"
    [(1, ⟨0, 0, 0, none, 0⟩), (2, ⟨0, 0, 0, none, 0⟩)] 2 rfl rfl hpick, by decide⟩

/-- C4: the claim fails on the code.  `bandits_log` performs no check
that `armId` belongs to `experimentId`: logging a reward for arm 3
(owned by experiment 2) against experiment 1 succeeds and stores the
event, where the claim requires a failure with nothing stored. -/
theorem banditsLog_no_arm_validation :
    logEndpoint twoExpDB ⟨1, 3, some 1⟩ =
      .ok { twoExpDB with events := [⟨1, some 3, "reward", some 1⟩] } ∧
    (3 : Nat) ∉ (getArms twoExpDB 1).map ArmRec.id := by
  exact ⟨rfl, by decide⟩

/-- C4 amended: a reward append with `reward` absent is rejected at
request validation (pydantic requires `reward: float`) with no event
stored; but arm membership is never validated — any `armId`, including
one outside the experiment, is accepted and the reward event is
appended. -/
theorem banditsLog_validation_behavior (db : BanditDB) (raw : RawLogReq) :
    (raw.reward = none → logEndpoint db raw = .error "422 field required: reward") ∧
    (∀ q, raw.reward = some q → logEndpoint db raw =
      .ok { db with events := db.events ++
        [⟨raw.experiment_id, some raw.arm_id, "reward", some q⟩] }) := by
  constructor
  · intro h
    unfold logEndpoint parseLogReq
    rw [h]
    rfl
  · intro q h
    unfold logEndpoint parseLogReq
    rw [h]
    rfl

/-- C4 witness: a reward-free request is rejected. -/
theorem banditsLog_validation_behavior_witness :
    logEndpoint twoExpDB ⟨2, 3, none⟩ = .error "422 field required: reward" :=
  (banditsLog_validation_behavior twoExpDB ⟨2, 3, none⟩).1 rfl

/-- C7: on an experiment with at least one arm and a recognized policy
name, a failing explanation call does not fail the pick: the handler
returns the chosen arm, the pick event is appended, and no Explanation
record is persisted. -/
theorem banditsPick_tolerates_explain_failure (db : BanditDB) (req : PickReq)
    (r : ℚ) (idx : Nat) (sampler : ℚ → ℚ → Nat → ℚ) (sqrtQ logQ : ℚ → ℚ)
    (err : String) (stats : List (Nat × ArmStats))
    (hstats : getArmStats db req.experiment_id = some stats)
    (hne : stats ≠ [])
    (hp : pyLower req.policy = "epsilon_greedy" ∨ pyLower req.policy = "ucb" ∨
      pyLower req.policy = "thompson") :
    ∃ a db', banditsPick db req r idx sampler sqrtQ logQ (.error err) = .ok (a, db') ∧
      db'.events = db.events ++ [⟨req.experiment_id, some a, "pick", none⟩] ∧
      db'.explanations = db.explanations := by
  obtain ⟨a, ha⟩ := pickArm_ok stats (pyLower req.policy) req.epsilon r idx sampler
    sqrtQ logQ hne hp
  have hempty : stats.isEmpty = false := by
    cases stats with
    | nil => exact absurd rfl hne
    | cons p l => rfl
  exact ⟨a, { db with events := db.events ++ [⟨req.experiment_id, some a, "pick", none⟩] },
    banditsPick_reduce db req r idx sampler sqrtQ logQ err stats a hstats hempty ha,
    rfl, rfl⟩

/-- C7 witness: a thompson pick on the fresh two-arm experiment with a
failing explanation call. -/
theorem banditsPick_tolerates_explain_failure_witness :
    ∃ a db', banditsPick freshDB ⟨1, "Thompson", none⟩ 0 0 (fun _ _ _ => 1/2) id id
        (.error "api down") = .ok (a, db') ∧
      db'.events = freshDB.events ++ [⟨1, some a, "pick", none⟩] ∧
      db'.explanations = freshDB.explanations :=
  banditsPick_tolerates_explain_failure freshDB ⟨1, "Thompson", none⟩ 0 0
    (fun _ _ _ => 1/2) id id "api down"
    [(1, ⟨0, 0, 0, none, 0⟩), (2, ⟨0, 0, 0, none, 0⟩)] rfl
    (by simp) (Or.inr (Or.inr (by decide)))

/-- C8 amended: on a failing external call (configured client) the task
transitions the record to `failed`, stores `"Error: " + str(e)` in the
`result` field (the model's only failure text field), and, when the
socket manager is configured, still emits the final observer
notification — exactly two snapshots, `running` then the failed record. -/
theorem task_failure_lifecycle (exp : WorkExp) (e : String) (socketOn : Bool) :
    (runCerebrasCodeAnalysis exp socketOn true (.error e)).1.status = "failed" ∧
    (runCerebrasCodeAnalysis exp socketOn true (.error e)).1.result =
      some ("Error: " ++ e) ∧
    (socketOn = true → (runCerebrasCodeAnalysis exp socketOn true (.error e)).2 =
      [{ exp with status := "running" },
        (runCerebrasCodeAnalysis exp socketOn true (.error e)).1]) := by
  refine ⟨rfl, rfl, ?_⟩
  intro h
  subst h
  rfl

/-- C8 witness: concrete failing run with the socket configured. -/
theorem task_failure_lifecycle_witness :
    (runCerebrasCodeAnalysis ⟨2, "Llama-Chat", "pending", "p", none⟩ true true
        (.error "timeout")).2 =
      [{ (⟨2, "Llama-Chat", "pending", "p", none⟩ : WorkExp) with status := "running" },
        (runCerebrasCodeAnalysis ⟨2, "Llama-Chat", "pending", "p", none⟩ true true
          (.error "timeout")).1] :=
  (task_failure_lifecycle ⟨2, "Llama-Chat", "pending", "p", none⟩ "timeout" true).2.2 rfl

/-- C8 counterexample: at a concrete failing input the stored text is
`"Error: boom"`, not the verbatim `"boom"` the claim requires (and the
record type, faithful to `models.py`, has no `error` field at all). -/
theorem task_failure_result_not_verbatim :
    (runCerebrasCodeAnalysis ⟨1, "Cerebras-Coder", "pending", "code", none⟩ true true
        (.error "boom")).1.status = "failed" ∧
    (runCerebrasCodeAnalysis ⟨1, "Cerebras-Coder", "pending", "code", none⟩ true true
        (.error "boom")).1.result = some ("Error: " ++ "boom") ∧
    (runCerebrasCodeAnalysis ⟨1, "Cerebras-Coder", "pending", "code", none⟩ true true
        (.error "boom")).1.result ≠ some "boom" := by
  refine ⟨rfl, rfl, by decide⟩

/-- C10: creating a bandit experiment with neither arm labels nor a
positive `num_arms` (both absent, or `num_arms = 0`) creates exactly 2
unlabeled arms. -/
theorem banditsCreate_default_two_arms (req : CreateReq) (h1 : req.arms = none)
    (h2 : req.num_arms = none ∨ req.num_arms = some 0) :
    banditsCreate req = [none, none] := by
  unfold banditsCreate
  rw [h1]
  rcases h2 with h2 | h2 <;> rw [h2] <;> rfl

/-- C10 witness: the all-defaults request. -/
theorem banditsCreate_default_two_arms_witness :
    banditsCreate ⟨none, none, none⟩ = [none, none] :=
  banditsCreate_default_two_arms ⟨none, none, none⟩ rfl (Or.inl rfl)

/-- C6 witness: the always-failing transport with a configured key. -/
theorem explainChoice_retries_exhausted_witness :
    (explainChoice (some "key") 3 alwaysFailTransport).2 = 3 ∧
    ∃ e, alwaysFailTransport 2 = .error e ∧
      ∃ pre post, (explainChoice (some "key") 3 alwaysFailTransport).1 =
        .error (pre ++ e ++ post) :=
  explainChoice_retries_exhausted "key" (by decide) alwaysFailTransport
    (fun n => ⟨"connection refused on attempt " ++ toString n, rfl⟩)

end AILab
